import Mathlib

/-!
Verification of the event-notification core in `util/netevent.c`.

We give a shallow embedding of the parts of the code that the stated
properties are about:

* the TCP accept listener with its intrusive free list of pooled TCP
  handlers (`comm_point_create_tcp`, `comm_point_tcp_accept_callback`,
  `reclaim_tcp_handler`, `setup_tcp_handler`, `comm_point_close`,
  `comm_point_start_listening`, `comm_point_stop_listening`),
* the TCP length-prefixed write state machine
  (`comm_point_tcp_handle_write`, `tcp_callback_writer`),
* the TCP length-prefixed read state machine
  (`comm_point_tcp_handle_read`, `tcp_callback_reader`, and the error
  handling of `comm_point_tcp_handle_callback`),
* the UDP receive batch loops (`comm_point_udp_callback`,
  `comm_point_udp_ancil_callback`),
* the UDP send functions (`comm_point_send_udp_msg`,
  `comm_point_send_udp_msg_if`),
* `comm_point_drop_reply`.

Machine integers are modelled as `Nat`/`Int` with explicit truncation
where the code truncates (the `htons((uint16_t)limit)` cast).  Sockets
and the kernel are modelled by oracles: each `recv`/`send`/`accept`
result that the kernel may legally produce is one step of a transition
relation, so quantifying over traces quantifies over every split into
partial reads/writes.
-/

/-- `NETEVENT_NOERROR` / `NETEVENT_CLOSED` / `NETEVENT_TIMEOUT` from
`util/netevent.h` (values 0, -1, -2; only their identity matters here). -/
inductive NeStatus where
  | noerror
  | closed
  | timeout
deriving DecidableEq

/-- `TCP_QUERY_TIMEOUT` from `util/netevent.c`. -/
def TCP_QUERY_TIMEOUT : Int := 120

/-- `LDNS_HEADER_SIZE`: size of the fixed DNS wire header, 12 bytes
(from the ldns library, not part of this repository's sources). -/
def LDNS_HEADER_SIZE : Nat := 12

/-- The fields of a `struct comm_point` of type `comm_tcp` that the
pooled-handler life cycle reads or writes.  `armed` is the timeout that
was passed to `event_add` (`none` models passing `NULL`, i.e. no timeout
armed); `listening` models whether the event is currently added;
`evRead` models whether `EV_READ` (rather than `EV_WRITE`) is set in the
event's flag word.  The buffer is modelled by its position and limit. -/
structure TcpHandler where
  fd : Int
  tcpIsReading : Bool
  tcpByteCount : Nat
  bufPos : Nat
  bufLimit : Nat
  timeout : Option Int
  armed : Option Int
  listening : Bool
  evRead : Bool
  tcpDoClose : Bool
  tcpDoToggleRw : Bool
deriving DecidableEq

/-- `comm_point_close` on a TCP handler: `event_del` (only when the fd
is live), close the descriptor, set `c->fd = -1`. -/
def commPointClose (h : TcpHandler) : TcpHandler :=
  if h.fd ≠ -1 then { h with fd := -1, listening := false, armed := none }
  else { h with fd := -1 }

/-- `comm_point_start_listening` on a `comm_tcp` point.  With
`sec != -1 && sec != 0` the timeout value is (re)written; for
`comm_tcp` the event direction is set from `tcp_is_reading`; a
`newfd != -1` rebinds the descriptor; finally `event_add` is called
with `sec==0 ? NULL : c->timeout`. -/
def commPointStartListening (h : TcpHandler) (newfd : Int) (sec : Int) : TcpHandler :=
  let h1 := if sec ≠ -1 ∧ sec ≠ 0 then { h with timeout := some sec } else h
  let h2 := { h1 with evRead := h1.tcpIsReading }
  let h3 := if newfd ≠ -1 then { h2 with fd := newfd } else h2
  { h3 with listening := true, armed := if sec = 0 then none else h3.timeout }

/-- `comm_point_stop_listening`: `event_del`. -/
def commPointStopListening (h : TcpHandler) : TcpHandler :=
  { h with listening := false, armed := none }

/-- `setup_tcp_handler`: clear the buffer (position 0, limit = capacity),
set reading mode, zero the byte count, and start listening on the new
descriptor with `TCP_QUERY_TIMEOUT`. -/
def setupTcpHandler (cap : Nat) (h : TcpHandler) (fd : Int) : TcpHandler :=
  let h1 := { h with bufPos := 0, bufLimit := cap }
  let h2 := { h1 with tcpIsReading := true, tcpByteCount := 0 }
  commPointStartListening h2 fd TCP_QUERY_TIMEOUT

/-- `tcp_callback_writer`: clear the buffer, flip to reading mode when
`tcp_do_toggle_rw`, zero the byte count, then stop and restart
listening with `comm_point_start_listening(c, -1, -1)`. -/
def tcpCallbackWriter (cap : Nat) (h : TcpHandler) : TcpHandler :=
  let h1 := { h with bufPos := 0, bufLimit := cap }
  let h2 := if h1.tcpDoToggleRw then { h1 with tcpIsReading := true } else h1
  let h3 := { h2 with tcpByteCount := 0 }
  commPointStartListening (commPointStopListening h3) (-1) (-1)

/-- A `comm_tcp_accept` point together with its pool: the handler array,
the intrusive free list (head = `c->tcp_free`, links = each handler's
`tcp_free` field) modelled as the list of pool indices in chain order,
and whether the accept event is currently added. -/
structure TcpListener (n : Nat) where
  handlers : Fin n → TcpHandler
  freeList : List (Fin n)
  listening : Bool

/-- `reclaim_tcp_handler` for a pooled handler (non-NULL `tcp_parent`):
close the point, push it on the parent's free list, and if the parent's
free list was empty before the push, re-enable the accept event via
`comm_point_start_listening(c->tcp_parent, -1, -1)` (whose empty-free-
list guard now passes since the list just became non-empty). -/
def reclaimTcpHandler {n : Nat} (L : TcpListener n) (i : Fin n) : TcpListener n :=
  let L2 : TcpListener n :=
    { L with handlers := Function.update L.handlers i (commPointClose (L.handlers i)),
             freeList := i :: L.freeList }
  if L.freeList = [] then { L2 with listening := true } else L2

/-- `comm_point_tcp_accept_callback`, successful-accept path: with a
non-empty free list, pop the head handler, pop it off the free list,
stop the accept event when the list became empty, and set the handler
up for the new descriptor.  With an empty free list the event is logged
and ignored.  (`comm_point_perform_accept` failing is a no-op on this
state and is a separate step of `PoolStep`.) -/
def tcpAcceptCallback {n : Nat} (cap : Nat) (L : TcpListener n) (newFd : Int) :
    TcpListener n :=
  match L.freeList with
  | [] => L
  | i :: rest =>
    let L2 : TcpListener n :=
      { L with freeList := rest,
               listening := if rest = [] then false else L.listening }
    let h2 := setupTcpHandler cap (L2.handlers i) newFd
    { L2 with handlers := Function.update L2.handlers i h2 }

/-- Handler state right after `comm_point_create_tcp_handler`: fd -1,
not reading, byte count 0, a `malloc`ed (not yet meaningful) timeout,
event set but not added, `tcp_do_toggle_rw` on.  The indeterminate
`timeval` contents are modelled as 0; the value is written before first
use by `comm_point_start_listening`. -/
def initHandler (cap : Nat) : TcpHandler :=
  { fd := -1, tcpIsReading := false, tcpByteCount := 0, bufPos := 0,
    bufLimit := cap, timeout := some 0, armed := none, listening := false,
    evRead := true, tcpDoClose := false, tcpDoToggleRw := true }

/-- Listener state after `comm_point_create_tcp`: the accept event is
added, and the handler-creation loop pushes handler 0, then 1, …, then
n-1 on the free list, leaving index n-1 at the head. -/
def initListener (n cap : Nat) : TcpListener n :=
  { handlers := fun _ => initHandler cap,
    freeList := (List.finRange n).reverse,
    listening := true }

/-- One externally triggered operation on a listener and its pool:
a readiness event on the accept socket where `accept()` returns the
(necessarily non-negative) descriptor `newFd`, a readiness event where
`accept()` fails (transient or logged error: state unchanged), or a
reclaim of a handler that currently holds a connection (reclaim is only
invoked from the handler's own event paths, never for a pooled-idle
handler). -/
inductive PoolStep {n : Nat} (cap : Nat) : TcpListener n → TcpListener n → Prop where
  | acceptOk (L : TcpListener n) (newFd : Int) (hfd : newFd ≠ -1) :
      PoolStep cap L (tcpAcceptCallback cap L newFd)
  | acceptFail (L : TcpListener n) : PoolStep cap L L
  | reclaim (L : TcpListener n) (i : Fin n) (hin : i ∉ L.freeList) :
      PoolStep cap L (reclaimTcpHandler L i)

/-- Reachability by a sequence of pool operations. -/
inductive PoolReach {n : Nat} (cap : Nat) : TcpListener n → TcpListener n → Prop where
  | refl (L : TcpListener n) : PoolReach cap L L
  | tail {L M K : TcpListener n} : PoolReach cap L M → PoolStep cap M K →
      PoolReach cap L K

/-- The pool invariant: the free list holds no duplicates, a handler's
fd is -1 exactly when it is on the free list, and the accept event is
added exactly when the free list is non-empty. -/
def poolInv {n : Nat} (L : TcpListener n) : Prop :=
  L.freeList.Nodup ∧
  (∀ i : Fin n, (L.handlers i).fd = -1 ↔ i ∈ L.freeList) ∧
  (L.listening = true ↔ L.freeList ≠ [])

/-- The wire image of one TCP frame: `htons((uint16_t)limit)` big-endian
followed by the payload bytes.  The cast to `uint16_t` truncates the
buffer limit modulo 2^16. -/
def tcpWireOf (payload : List Nat) : List Nat :=
  (payload.length % 65536) / 256 :: payload.length % 256 :: payload

/-- The write-side state that `comm_point_tcp_handle_write` threads
between readiness events, together with the bytes put on the wire so
far and whether `tcp_callback_writer` has run for this frame. -/
structure WriteSt where
  wire : List Nat
  tcpByteCount : Nat
  bufPos : Nat
  done : Bool
deriving DecidableEq

/-- The length-and-payload `writev` block of `comm_point_tcp_handle_write`
(entered while `tcp_byte_count < sizeof(uint16_t)`): the kernel accepts
`k` bytes of `iov[0] = remaining length bytes` chained with
`iov[1] = whole payload`, i.e. the next `k` bytes of the frame after
offset `tcp_byte_count`.  Then `tcp_byte_count += k`; if the length
bytes are still incomplete the handler returns; otherwise the buffer
position is set to `tcp_byte_count - 2` and, when nothing remains,
`tcp_callback_writer` finishes the frame (its buffer/counter effects
are recorded here, its event rearm in `tcpCallbackWriter`). -/
def tcpWriteHdr (payload : List Nat) (k : Nat) (s : WriteSt) : WriteSt :=
  let sent := ((tcpWireOf payload).drop s.tcpByteCount).take k
  let s1 : WriteSt := { s with wire := s.wire ++ sent,
                               tcpByteCount := s.tcpByteCount + k }
  if s1.tcpByteCount < 2 then s1
  else
    let s2 := { s1 with bufPos := s1.tcpByteCount - 2 }
    if payload.length - s2.bufPos = 0 then
      { s2 with done := true, tcpByteCount := 0, bufPos := 0 }
    else s2

/-- The body `send` block of `comm_point_tcp_handle_write`: the kernel
accepts `k` bytes starting at the buffer position; the position is
advanced and `tcp_callback_writer` finishes the frame when the buffer
has no remaining bytes. -/
def tcpWriteBody (payload : List Nat) (k : Nat) (s : WriteSt) : WriteSt :=
  let s1 : WriteSt := { s with wire := s.wire ++ ((payload.drop s.bufPos).take k),
                               bufPos := s.bufPos + k }
  if payload.length - s1.bufPos = 0 then
    { s1 with done := true, tcpByteCount := 0, bufPos := 0 }
  else s1

/-- One kernel-mediated write step.  A readiness event on a handler
with `tcp_byte_count < 2` runs the `writev` block (and, if the length
completes with payload remaining, continues into the body `send`, which
is the same as a subsequent `bodyStep`, a would-block result of that
`send` leaving the state unchanged); an event with `tcp_byte_count >= 2`
runs only the body `send`.  `k` is bounded by the bytes offered to the
kernel; `EINTR`/`EAGAIN` results leave the state unchanged and need no
step; fatal errors abort the frame and are outside these traces. -/
inductive TcpWriteStep (payload : List Nat) : WriteSt → WriteSt → Prop where
  | hdrStep (s : WriteSt) (k : Nat) (hdone : s.done = false)
      (hbc : s.tcpByteCount < 2) (hk : k ≤ 2 - s.tcpByteCount + payload.length) :
      TcpWriteStep payload s (tcpWriteHdr payload k s)
  | bodyStep (s : WriteSt) (k : Nat) (hdone : s.done = false)
      (hbc : 2 ≤ s.tcpByteCount) (hk : k ≤ payload.length - s.bufPos) :
      TcpWriteStep payload s (tcpWriteBody payload k s)

/-- Reachability through write steps. -/
inductive TcpWriteReach (payload : List Nat) : WriteSt → WriteSt → Prop where
  | refl (s : WriteSt) : TcpWriteReach payload s s
  | tail {s t u : WriteSt} : TcpWriteReach payload s t → TcpWriteStep payload t u →
      TcpWriteReach payload s u

/-- Write-side start state: `tcp_byte_count` was zeroed by
`tcp_callback_reader`, the buffer was flipped so the position is 0, and
no bytes are on the wire yet. -/
def writeInit : WriteSt :=
  { wire := [], tcpByteCount := 0, bufPos := 0, done := false }

/-- The read-side state threaded between readiness events.  `b0`/`b1`
are the first two buffer cells (where the length bytes land before the
body overwrites the buffer from position 0), `content` the body bytes
stored so far, `streamPos` how much of the incoming wire stream has
been consumed, `cbs` the upward callback invocations (status and, for
`NETEVENT_NOERROR`, the buffer contents handed up), `dropped` that
`comm_point_tcp_handle_read` returned 0, and `reclaimed` that the
caller `comm_point_tcp_handle_callback` then ran `reclaim_tcp_handler`. -/
structure ReadSt where
  streamPos : Nat
  tcpByteCount : Nat
  b0 : Nat
  b1 : Nat
  content : List Nat
  bufPos : Nat
  bufLimit : Nat
  tcpIsReading : Bool
  cbs : List (NeStatus × Option (List Nat))
  dropped : Bool
  reclaimed : Bool
deriving DecidableEq

/-- `comm_point_tcp_handle_read` returning 0: the caller
`comm_point_tcp_handle_callback` reclaims the handler and, unless
`tcp_do_close` is set, reports `NETEVENT_CLOSED` upward with a NULL
reply context.  (`comm_point_local_handle_callback` differs only in not
reclaiming; the claims below concern `comm_tcp` handlers.) -/
def dropState (doClose : Bool) (s : ReadSt) : ReadSt :=
  { s with dropped := true, reclaimed := true,
           cbs := s.cbs ++ (if doClose then [] else [(NeStatus.closed, none)]) }

/-- `tcp_callback_reader`: flip the buffer (limit := position,
position := 0), leave reading mode when `tcp_do_toggle_rw`, zero the
byte count, and invoke the callback with `NETEVENT_NOERROR` and the
reply context (the buffer contents).  The stop/start-listening calls
only touch the event registration, modelled in `TcpHandler`. -/
def tcpCallbackReaderStep (toggle : Bool) (s : ReadSt) : ReadSt :=
  let s1 := { s with bufLimit := s.bufPos, bufPos := 0 }
  let s2 := if toggle then { s1 with tcpIsReading := false } else s1
  { s2 with tcpByteCount := 0, cbs := s2.cbs ++ [(NeStatus.noerror, some s.content)] }

/-- The length block of `comm_point_tcp_handle_read` (entered while
`tcp_byte_count < sizeof(uint16_t)`): `recv` delivers `r` of the
remaining length bytes into the buffer at offset `tcp_byte_count`
(`r = 0` is end-of-stream and drops the connection).  When both length
bytes are present, the decoded big-endian length is validated: larger
than the buffer capacity drops the connection; then the buffer limit is
set and, unless `short_ok`, a length below `LDNS_HEADER_SIZE` drops the
connection. -/
def tcpReadHdr (shortOk doClose : Bool) (cap : Nat) (stream : List Nat)
    (r : Nat) (s : ReadSt) : ReadSt :=
  if r = 0 then dropState doClose s
  else
    let b0' := if s.tcpByteCount = 0 then stream.getD s.streamPos 0 else s.b0
    let b1' := if s.tcpByteCount + r = 2 then stream.getD (s.streamPos + r - 1) 0 else s.b1
    let s1 := { s with b0 := b0', b1 := b1',
                       tcpByteCount := s.tcpByteCount + r,
                       streamPos := s.streamPos + r }
    if s1.tcpByteCount ≠ 2 then s1
    else
      let len := s1.b0 * 256 + s1.b1
      if cap < len then dropState doClose s1
      else
        let s2 := { s1 with bufLimit := len }
        if ¬shortOk ∧ len < LDNS_HEADER_SIZE then dropState doClose s2
        else s2

/-- The body block of `comm_point_tcp_handle_read`: `recv` delivers `r`
bytes at the buffer position (`r = 0` is end-of-stream and drops the
connection); when the buffer has no remaining bytes,
`tcp_callback_reader` completes the message. -/
def tcpReadBody (toggle doClose : Bool) (stream : List Nat)
    (r : Nat) (s : ReadSt) : ReadSt :=
  if r = 0 then dropState doClose s
  else
    let s1 := { s with content := s.content ++ ((stream.drop s.streamPos).take r),
                       bufPos := s.bufPos + r,
                       streamPos := s.streamPos + r }
    if s1.bufLimit ≤ s1.bufPos then tcpCallbackReaderStep toggle s1 else s1

/-- One kernel-mediated read step on the wire stream `stream`.  `recv`
can deliver at most the bytes requested and at most the bytes of the
stream not yet consumed; a would-block result leaves the state
unchanged and needs no step.  As on the write side, the fall-through
from a completed length block into the body `recv` of the same
readiness event is the composition of an `hdrStep` and a `bodyStep`. -/
inductive TcpReadStep (shortOk toggle doClose : Bool) (cap : Nat) (stream : List Nat) :
    ReadSt → ReadSt → Prop where
  | hdrStep (s : ReadSt) (r : Nat) (hdrop : s.dropped = false)
      (hrd : s.tcpIsReading = true) (hbc : s.tcpByteCount < 2)
      (hr : r ≤ 2 - s.tcpByteCount) (hs : s.streamPos + r ≤ stream.length) :
      TcpReadStep shortOk toggle doClose cap stream s
        (tcpReadHdr shortOk doClose cap stream r s)
  | bodyStep (s : ReadSt) (r : Nat) (hdrop : s.dropped = false)
      (hrd : s.tcpIsReading = true) (hbc : 2 ≤ s.tcpByteCount)
      (hr : r ≤ s.bufLimit - s.bufPos) (hs : s.streamPos + r ≤ stream.length) :
      TcpReadStep shortOk toggle doClose cap stream s
        (tcpReadBody toggle doClose stream r s)

/-- Reachability through read steps. -/
inductive TcpReadReach (shortOk toggle doClose : Bool) (cap : Nat) (stream : List Nat) :
    ReadSt → ReadSt → Prop where
  | refl (s : ReadSt) : TcpReadReach shortOk toggle doClose cap stream s s
  | tail {s t u : ReadSt} : TcpReadReach shortOk toggle doClose cap stream s t →
      TcpReadStep shortOk toggle doClose cap stream t u →
      TcpReadReach shortOk toggle doClose cap stream s u

/-- Read-side start state, as left by `setup_tcp_handler`: buffer
cleared (position 0, limit = capacity), reading mode, byte count 0, no
stream bytes consumed, no callbacks delivered. -/
def readInit (cap : Nat) : ReadSt :=
  { streamPos := 0, tcpByteCount := 0, b0 := 0, b1 := 0, content := [],
    bufPos := 0, bufLimit := cap, tcpIsReading := true, cbs := [],
    dropped := false, reclaimed := false }

/-- `NUM_UDP_PER_SELECT` from `util/netevent.c` when non-blocking mode
works (`#ifndef NONBLOCKING_IS_BROKEN`; the broken-platform build uses
1 instead). -/
def NUM_UDP_PER_SELECT : Nat := 100

/-- The outcome of one `recvfrom`/`recvmsg` call in the UDP batch loop:
a would-block result (`EAGAIN`/`EINTR`, no log), any other failure
(logged with `log_err`), or a received datagram.  For a received
datagram, `fdAfter` is the value of `rep.c->fd` after the callback (and
the optional immediate reply send) ran. -/
inductive UdpRecvOutcome where
  | wouldblock
  | fatal
  | ok (fdAfter : Int)
deriving DecidableEq

/-- Whether the plain UDP loop body ends the loop after this outcome:
both error kinds `return`, and a received datagram ends the loop when
`rep.c->fd != fd` (the callback closed the point or rebound it to
another descriptor). -/
def udpStopsLoop (fd : Int) (o : UdpRecvOutcome) : Bool :=
  match o with
  | UdpRecvOutcome.wouldblock => true
  | UdpRecvOutcome.fatal => true
  | UdpRecvOutcome.ok fdAfter => decide (fdAfter ≠ fd)

/-- Whether the ancillary UDP loop body ends the loop after this
outcome: both error kinds `return`, and a received datagram ends the
loop only when `rep.c->fd == -1` (the comm point was closed). -/
def udpAncilStopsLoop (o : UdpRecvOutcome) : Bool :=
  match o with
  | UdpRecvOutcome.wouldblock => true
  | UdpRecvOutcome.fatal => true
  | UdpRecvOutcome.ok fdAfter => decide (fdAfter = -1)

/-- Number of receive calls performed by the
`for(i=0; i<NUM_UDP_PER_SELECT; i++)` loop given the iteration budget
and the oracle of receive outcomes. -/
def udpRecvCount (stop : UdpRecvOutcome → Bool) : Nat → List UdpRecvOutcome → Nat
  | 0, _ => 0
  | _ + 1, [] => 0
  | n + 1, o :: rest => if stop o then 1 else 1 + udpRecvCount stop n rest

/-- Receive calls performed by one `comm_point_udp_callback` readiness
notification on a point whose descriptor is `fd`. -/
def commPointUdpCallbackRecvs (fd : Int) (outs : List UdpRecvOutcome) : Nat :=
  udpRecvCount (udpStopsLoop fd) NUM_UDP_PER_SELECT outs

/-- Receive calls performed by one `comm_point_udp_ancil_callback`
readiness notification. -/
def commPointUdpAncilCallbackRecvs (outs : List UdpRecvOutcome) : Nat :=
  udpRecvCount udpAncilStopsLoop NUM_UDP_PER_SELECT outs

/-- Verbosity levels of `util/log.h` (not part of this repository's
sources; modelled from the spec's verbosity policy and the levels the
code names): 0 quiet, `VERB_OPS` = 1, `VERB_DETAIL` = 2,
`VERB_QUERY` = 3, `VERB_ALGO` = 4. -/
def VERB_OPS : Nat := 1

/-- See `VERB_OPS`. -/
def VERB_ALGO : Nat := 4

/-- `ENETUNREACH` (the Linux errno value; only its identity matters). -/
def ENETUNREACH : Nat := 101

/-- The result of the single `sendto`/`sendmsg` syscall: failure with
an errno, or `k` bytes accepted. -/
inductive UdpSendResult where
  | failed (e : Nat)
  | sent (k : Nat)
deriving DecidableEq

/-- What a UDP send call did: its return value, how many bytes the one
syscall was asked to send, and the levels of the log lines it emitted
(`0` for `log_err`, which always prints; `verbose`/`log_addr` lines
print only when the global verbosity reaches their level). -/
structure SendOutcome where
  success : Bool
  attempted : Nat
  logs : List Nat
deriving DecidableEq

/-- A `verbose(level, ...)`-style log call: emits one line iff the
global verbosity reaches the level. -/
def emits (verbosity level : Nat) : List Nat :=
  if level ≤ verbosity then [level] else []

/-- `comm_point_send_udp_msg`: one `sendto` of the buffer's remaining
bytes.  On failure, `ENETUNREACH` below `VERB_ALGO` returns 0 silently;
other failures log `verbose(VERB_OPS, ...)` and
`log_addr(VERB_OPS, ...)` and return 0.  A short write logs with
`log_err` and returns 0; only a full write returns 1. -/
def commPointSendUdpMsg (remaining verbosity : Nat) (res : UdpSendResult) :
    SendOutcome :=
  match res with
  | UdpSendResult.failed e =>
    if e = ENETUNREACH ∧ verbosity < VERB_ALGO then
      { success := false, attempted := remaining, logs := [] }
    else
      { success := false, attempted := remaining,
        logs := emits verbosity VERB_OPS ++ emits verbosity VERB_OPS }
  | UdpSendResult.sent k =>
    if k ≠ remaining then
      { success := false, attempted := remaining, logs := [0] }
    else
      { success := true, attempted := remaining, logs := [] }

/-- `comm_point_send_udp_msg_if`: `p_ancil` debug output when verbosity
reaches `VERB_ALGO`, then one `sendmsg` of the buffer's remaining
bytes.  Any failure logs `verbose(VERB_OPS, ...)` and
`log_addr(VERB_OPS, ...)` and returns 0 — there is no `ENETUNREACH`
special case.  A short write logs with `log_err` and returns 0; only a
full write returns 1. -/
def commPointSendUdpMsgIf (remaining verbosity : Nat) (res : UdpSendResult) :
    SendOutcome :=
  let ancilLogs := emits verbosity VERB_ALGO
  match res with
  | UdpSendResult.failed _ =>
    { success := false, attempted := remaining,
      logs := ancilLogs ++ emits verbosity VERB_OPS ++ emits verbosity VERB_OPS }
  | UdpSendResult.sent k =>
    if k ≠ remaining then
      { success := false, attempted := remaining, logs := ancilLogs ++ [0] }
    else
      { success := true, attempted := remaining, logs := ancilLogs }

/-- A UDP comm point as far as `comm_point_drop_reply` can observe it:
its descriptor and whether its event is registered. -/
structure UdpEndpoint where
  fd : Int
  listening : Bool
deriving DecidableEq

/-- A world with one UDP comm point and one TCP listener pool, enough
to express what `comm_point_drop_reply` touches. -/
structure DropWorld (n : Nat) where
  udp : UdpEndpoint
  lis : TcpListener n

/-- What a reply context's `repinfo->c` points to. -/
inductive ReplyTarget (n : Nat) where
  | udpReply
  | tcpReply (i : Fin n)

/-- `comm_point_drop_reply`: NULL reply contexts return immediately;
`comm_udp` points return immediately; otherwise the TCP handler is
reclaimed. -/
def commPointDropReply {n : Nat} (w : DropWorld n) (rep : Option (ReplyTarget n)) :
    DropWorld n :=
  match rep with
  | none => w
  | some ReplyTarget.udpReply => w
  | some (ReplyTarget.tcpReply i) => { w with lis := reclaimTcpHandler w.lis i }

/-- `comm_point_tcp_handle_callback` for an `EV_TIMEOUT` event: log at
`VERB_QUERY`, reclaim the handler, and unless `tcp_do_close` report
`NETEVENT_TIMEOUT` upward (with a NULL reply context).  Returns the new
pool state and the upward callback invocations of this event. -/
def tcpHandleTimeoutEvent {n : Nat} (L : TcpListener n) (i : Fin n) :
    TcpListener n × List NeStatus :=
  (reclaimTcpHandler L i,
   if (L.handlers i).tcpDoClose then [] else [NeStatus.timeout])

theorem commPointClose_fd (h : TcpHandler) : (commPointClose h).fd = -1 := by
  unfold commPointClose
  split <;> rfl

theorem setupTcpHandler_fd (cap : Nat) (h : TcpHandler) (fd : Int)
    (hfd : fd ≠ -1) : (setupTcpHandler cap h fd).fd = fd := by
  simp [setupTcpHandler, commPointStartListening, TCP_QUERY_TIMEOUT, hfd]

theorem poolInv_init (n cap : Nat) (hn : 0 < n) : poolInv (initListener n cap) := by
  refine ⟨?_, ?_, ?_⟩
  · simpa [initListener] using List.nodup_finRange n
  · intro i
    simp [initListener, initHandler]
  · simp [initListener]
    omega

theorem poolInv_step {n cap : Nat} {L M : TcpListener n}
    (hInv : poolInv L) (h : PoolStep cap L M) : poolInv M := by
  obtain ⟨hnd, hfd, hlis⟩ := hInv
  cases h with
  | acceptFail => exact ⟨hnd, hfd, hlis⟩
  | acceptOk newFd hnew =>
    cases hfree : L.freeList with
    | nil =>
      simp only [tcpAcceptCallback, hfree]
      exact ⟨hnd, hfd, hlis⟩
    | cons i rest =>
      rw [hfree] at hnd
      have hndr : rest.Nodup := hnd.of_cons
      have hir : i ∉ rest := (List.nodup_cons.mp hnd).1
      simp only [tcpAcceptCallback, hfree]
      refine ⟨hndr, ?_, ?_⟩
      · intro j
        by_cases hji : j = i
        · subst hji
          simp [Function.update_same, setupTcpHandler_fd cap _ newFd hnew, hnew, hir]
        · simp only [Function.update_noteq hji]
          rw [hfd j, hfree]
          simp [hji]
      · by_cases hr : rest = []
        · simp [hr]
        · have hLt : L.listening = true := hlis.mpr (by simp [hfree])
          simp [hr, hLt]
  | reclaim i hin =>
    have hnd2 : (i :: L.freeList).Nodup := List.nodup_cons.mpr ⟨hin, hnd⟩
    have hfd2 : ∀ j : Fin n,
        ((Function.update L.handlers i (commPointClose (L.handlers i))) j).fd = -1 ↔
        j ∈ i :: L.freeList := by
      intro j
      by_cases hji : j = i
      · subst hji
        simp [Function.update_same, commPointClose_fd]
      · simp only [Function.update_noteq hji]
        rw [hfd j]
        simp [hji]
    by_cases hfe : L.freeList = []
    · refine ⟨?_, ?_, ?_⟩
      · simp only [reclaimTcpHandler, hfe, if_pos]
        rw [hfe] at hnd2
        exact hnd2
      · simp only [reclaimTcpHandler, hfe, if_pos]
        rw [hfe] at hfd2
        exact hfd2
      · simp [reclaimTcpHandler, hfe]
    · refine ⟨?_, ?_, ?_⟩
      · simp only [reclaimTcpHandler, if_neg hfe]
        exact hnd2
      · simp only [reclaimTcpHandler, if_neg hfe]
        exact hfd2
      · simp only [reclaimTcpHandler, if_neg hfe]
        constructor
        · intro _; simp
        · intro _; exact hlis.mpr hfe

theorem poolInv_reach {n cap : Nat} {L M : TcpListener n}
    (hInv : poolInv L) (h : PoolReach cap L M) : poolInv M := by
  induction h with
  | refl => exact hInv
  | tail _ hstep ih => exact poolInv_step ih hstep

/-- C1: for every TCP listener created with pool size `n` and every
sequence of accept and reclaim operations on it, the free-list length
stays at most `n` (it cannot go negative, being a length), equals `n`
when all handlers are reclaimed (fd -1), and the listener's own
readiness is enabled exactly when its free list is non-empty; accepting
the last free handler suspends listening, and the first reclaim after
exhaustion re-enables it immediately. -/
theorem C1_free_list_bounds_and_listening {n cap : Nat} (hn : 0 < n)
    (L : TcpListener n) (h : PoolReach cap (initListener n cap) L)
    (newFd : Int) (i : Fin n) :
    L.freeList.length ≤ n ∧
    ((∀ j : Fin n, (L.handlers j).fd = -1) → L.freeList.length = n) ∧
    (L.listening = true ↔ L.freeList ≠ []) ∧
    (L.freeList.length = 1 → (tcpAcceptCallback cap L newFd).listening = false) ∧
    (L.freeList = [] → (reclaimTcpHandler L i).listening = true) := by
  obtain ⟨hnd, hfd, hlis⟩ := poolInv_reach (poolInv_init n cap hn) h
  refine ⟨?_, ?_, hlis, ?_, ?_⟩
  · simpa using hnd.length_le_card
  · intro hall
    have hmem : ∀ j : Fin n, j ∈ L.freeList := fun j => (hfd j).mp (hall j)
    have huniv : L.freeList.toFinset = Finset.univ :=
      Finset.eq_univ_iff_forall.mpr (by simpa using hmem)
    have hcard := List.toFinset_card_of_nodup hnd
    rw [huniv] at hcard
    simpa using hcard.symm
  · intro hlen
    obtain ⟨j, hfree⟩ := List.length_eq_one.mp hlen
    simp [tcpAcceptCallback, hfree]
  · intro hfe
    simp [reclaimTcpHandler, hfe]

/-- Witness for C1 at pool size 2, capacity 10, after one successful
accept with descriptor 5. -/
theorem C1_free_list_bounds_and_listening_witness :
    (tcpAcceptCallback 10 (initListener 2 10) 5).freeList.length ≤ 2 ∧
    ((tcpAcceptCallback 10 (initListener 2 10) 5).listening = true ↔
      (tcpAcceptCallback 10 (initListener 2 10) 5).freeList ≠ []) ∧
    ((tcpAcceptCallback 10 (initListener 2 10) 5).freeList.length = 1 →
      (tcpAcceptCallback 10 (tcpAcceptCallback 10 (initListener 2 10) 5) 7).listening
        = false) ∧
    ((tcpAcceptCallback 10 (initListener 2 10) 5).freeList = [] →
      (reclaimTcpHandler (tcpAcceptCallback 10 (initListener 2 10) 5) 0).listening
        = true) := by
  obtain ⟨h1, _, h3, h4, h5⟩ :=
    @C1_free_list_bounds_and_listening 2 10 (by decide) _
      (PoolReach.tail (PoolReach.refl _) (PoolStep.acceptOk _ 5 (by decide))) 7 0
  exact ⟨h1, h3, h4, h5⟩

/-- C5: at every state reachable by create, accept and reclaim, a
handler's fd is -1 exactly when it is on the listener's free list; no
handler is simultaneously bound to a live connection (fd different from
-1) and present on the free list. -/
theorem C5_fd_minus_one_iff_free {n cap : Nat} (hn : 0 < n)
    (L : TcpListener n) (h : PoolReach cap (initListener n cap) L) (i : Fin n) :
    ((L.handlers i).fd = -1 ↔ i ∈ L.freeList) ∧
      ¬((L.handlers i).fd ≠ -1 ∧ i ∈ L.freeList) := by
  obtain ⟨_, hfd, _⟩ := poolInv_reach (poolInv_init n cap hn) h
  refine ⟨hfd i, ?_⟩
  rintro ⟨hne, hmem⟩
  exact hne ((hfd i).mpr hmem)

/-- Witness for C5 at pool size 2, capacity 10, after a successful
accept (handler 1 in use, handler 0 free). -/
theorem C5_fd_minus_one_iff_free_witness :
    (((tcpAcceptCallback 10 (initListener 2 10) 5).handlers 1).fd = -1 ↔
      (1 : Fin 2) ∈ (tcpAcceptCallback 10 (initListener 2 10) 5).freeList) ∧
    ¬(((tcpAcceptCallback 10 (initListener 2 10) 5).handlers 1).fd ≠ -1 ∧
      (1 : Fin 2) ∈ (tcpAcceptCallback 10 (initListener 2 10) 5).freeList) :=
  @C5_fd_minus_one_iff_free 2 10 (by decide) _
    (PoolReach.tail (PoolReach.refl _) (PoolStep.acceptOk _ 5 (by decide))) 1

theorem tcpWireOf_length (payload : List Nat) :
    (tcpWireOf payload).length = payload.length + 2 := by
  simp [tcpWireOf]

theorem tcpWireOf_drop (payload : List Nat) (pos : Nat) :
    (tcpWireOf payload).drop (2 + pos) = payload.drop pos := by
  rw [Nat.add_comm]
  rfl

/-- The inductive invariant of the write machine: the wire always holds
exactly the already-sent part of the frame. -/
def tcpWriteInv (payload : List Nat) (s : WriteSt) : Prop :=
  (s.done = true ∧ s.wire = tcpWireOf payload) ∨
  (s.done = false ∧ s.tcpByteCount < 2 ∧
    s.wire = (tcpWireOf payload).take s.tcpByteCount) ∨
  (s.done = false ∧ 2 ≤ s.tcpByteCount ∧ s.bufPos ≤ payload.length ∧
    s.wire = (tcpWireOf payload).take (2 + s.bufPos))

theorem tcpWriteInv_init (payload : List Nat) : tcpWriteInv payload writeInit := by
  right; left
  exact ⟨rfl, by decide, by simp [writeInit]⟩

theorem tcpWriteHdr_wire (payload : List Nat) (k : Nat) (s : WriteSt) :
    (tcpWriteHdr payload k s).wire =
      s.wire ++ ((tcpWireOf payload).drop s.tcpByteCount).take k := by
  simp only [tcpWriteHdr]
  split
  · rfl
  · split <;> rfl

theorem tcpWriteBody_wire (payload : List Nat) (k : Nat) (s : WriteSt) :
    (tcpWriteBody payload k s).wire =
      s.wire ++ ((payload.drop s.bufPos).take k) := by
  simp only [tcpWriteBody]
  split <;> rfl

theorem tcpWriteInv_step {payload : List Nat} {s t : WriteSt}
    (hInv : tcpWriteInv payload s) (h : TcpWriteStep payload s t) :
    tcpWriteInv payload t := by
  cases h with
  | hdrStep k hdone hbc hk =>
    rcases hInv with ⟨hd, _⟩ | ⟨_, _, hwire⟩ | ⟨_, hge, _, _⟩
    · simp [hd] at hdone
    · by_cases h2 : s.tcpByteCount + k < 2
      · right; left
        refine ⟨by simp [tcpWriteHdr, h2, hdone], by simp [tcpWriteHdr, h2], ?_⟩
        rw [tcpWriteHdr_wire, hwire, ← List.take_add]
        simp [tcpWriteHdr, h2]
      · by_cases hrem : payload.length - (s.tcpByteCount + k - 2) = 0
        · left
          have hall : s.tcpByteCount + k = 2 + payload.length := by omega
          refine ⟨by simp [tcpWriteHdr, h2, hrem], ?_⟩
          rw [tcpWriteHdr_wire, hwire, ← List.take_add, hall]
          exact List.take_of_length_le (by rw [tcpWireOf_length]; omega)
        · right; right
          refine ⟨by simp [tcpWriteHdr, h2, hrem, hdone],
            by simp [tcpWriteHdr, h2, hrem]; omega,
            by simp [tcpWriteHdr, h2, hrem]; omega, ?_⟩
          rw [tcpWriteHdr_wire, hwire, ← List.take_add]
          simp only [tcpWriteHdr, h2, hrem]
          simp only [if_false]
          congr 1
          omega
    · omega
  | bodyStep k hdone hbc hk =>
    rcases hInv with ⟨hd, _⟩ | ⟨_, hlt, _⟩ | ⟨_, _, hpos, hwire⟩
    · simp [hd] at hdone
    · omega
    · by_cases hrem : payload.length - (s.bufPos + k) = 0
      · left
        refine ⟨by simp [tcpWriteBody, hrem], ?_⟩
        rw [tcpWriteBody_wire, hwire, ← tcpWireOf_drop, ← List.take_add]
        exact List.take_of_length_le (by rw [tcpWireOf_length]; omega)
      · right; right
        refine ⟨by simp [tcpWriteBody, hrem, hdone],
          by simp [tcpWriteBody, hrem]; omega,
          by simp [tcpWriteBody, hrem]; omega, ?_⟩
        rw [tcpWriteBody_wire, hwire, ← tcpWireOf_drop, ← List.take_add]
        simp only [tcpWriteBody, hrem]
        simp only [if_false]
        congr 1
        omega

theorem tcpWriteInv_reach {payload : List Nat} {s t : WriteSt}
    (hInv : tcpWriteInv payload s) (h : TcpWriteReach payload s t) :
    tcpWriteInv payload t := by
  induction h with
  | refl => exact hInv
  | tail _ hstep ih => exact tcpWriteInv_step ih hstep

/-- C2: for every payload of length `L < 2^16` (so that the 2-byte
big-endian encoding of `L` exists; the limit is truncated to `uint16_t`
by the code) held in a TCP handler's buffer, any completed run of the
TCP write path — under any split of the sends tracked by
`tcp_byte_count` — emits exactly `L+2` bytes on the wire: the big-endian
encoding of `L` followed by the payload bytes unchanged. -/
theorem C2_write_path_wire_format (payload : List Nat)
    (hL : payload.length < 65536) (s : WriteSt)
    (h : TcpWriteReach payload writeInit s) (hdone : s.done = true) :
    s.wire = payload.length / 256 :: payload.length % 256 :: payload ∧
    s.wire.length = payload.length + 2 := by
  rcases tcpWriteInv_reach (tcpWriteInv_init payload) h with
    ⟨_, hwire⟩ | ⟨hd, _⟩ | ⟨hd, _⟩
  · constructor
    · rw [hwire]
      simp [tcpWireOf, Nat.mod_eq_of_lt hL]
    · rw [hwire, tcpWireOf_length]
  · rw [hdone] at hd; cases hd
  · rw [hdone] at hd; cases hd

/-- Witness for C2: payload `[1, 2, 3]`, sent by one `writev` that takes
the two length bytes, then a body send of 1 byte and one of 2 bytes. -/
theorem C2_write_path_wire_format_witness :
    (tcpWriteBody [1, 2, 3] 2 (tcpWriteBody [1, 2, 3] 1
        (tcpWriteHdr [1, 2, 3] 2 writeInit))).wire = [0, 3, 1, 2, 3] ∧
    (tcpWriteBody [1, 2, 3] 2 (tcpWriteBody [1, 2, 3] 1
        (tcpWriteHdr [1, 2, 3] 2 writeInit))).wire.length = 3 + 2 :=
  C2_write_path_wire_format [1, 2, 3] (by decide) _
    (TcpWriteReach.tail (TcpWriteReach.tail (TcpWriteReach.tail
        (TcpWriteReach.refl _)
        (TcpWriteStep.hdrStep _ 2 (by decide) (by decide) (by decide)))
      (TcpWriteStep.bodyStep _ 1 (by decide) (by decide) (by decide)))
      (TcpWriteStep.bodyStep _ 2 (by decide) (by decide) (by decide)))
    (by decide)

theorem tcpWireOf_getD_zero (payload : List Nat) (hL : payload.length < 65536) :
    (tcpWireOf payload).getD 0 0 = payload.length / 256 := by
  simp [tcpWireOf, Nat.mod_eq_of_lt hL]

theorem tcpWireOf_getD_one (payload : List Nat) :
    (tcpWireOf payload).getD 1 0 = payload.length % 256 := by
  simp [tcpWireOf]

/-- The inductive invariant of the read machine on the well-formed wire
stream `tcpWireOf payload`: waiting for length bytes (phase 1), reading
the body (phase 2), message delivered (phase 3), or dropped by an
end-of-stream result. -/
def tcpReadInv (payload : List Nat) (toggle : Bool) (cap : Nat) (s : ReadSt) : Prop :=
  s.dropped = true ∨
  (s.cbs = [] ∧ s.tcpByteCount < 2 ∧ s.streamPos = s.tcpByteCount ∧
    s.bufPos = 0 ∧ s.content = [] ∧ s.bufLimit = cap ∧ s.tcpIsReading = true ∧
    (s.tcpByteCount = 1 → s.b0 = payload.length / 256)) ∨
  (s.cbs = [] ∧ s.tcpByteCount = 2 ∧ s.streamPos = 2 + s.bufPos ∧
    s.bufPos < payload.length ∧ s.bufLimit = payload.length ∧
    s.content = payload.take s.bufPos ∧ s.tcpIsReading = true) ∨
  (s.cbs = [(NeStatus.noerror, some payload)] ∧ s.tcpByteCount = 0 ∧
    s.bufPos = 0 ∧ s.bufLimit = payload.length ∧
    s.streamPos = 2 + payload.length ∧ s.tcpIsReading = !toggle)

theorem tcpReadInv_init (payload : List Nat) (toggle : Bool) (cap : Nat) :
    tcpReadInv payload toggle cap (readInit cap) := by
  right; left
  refine ⟨rfl, ?_, rfl, rfl, rfl, rfl, rfl, ?_⟩
  · show (0 : Nat) < 2
    omega
  · intro h
    simp [readInit] at h

theorem tcpReadInv_step {payload : List Nat} {shortOk toggle doClose : Bool}
    {cap : Nat} {s t : ReadSt}
    (hL : payload.length < 65536) (hcap : payload.length ≤ cap)
    (hone : 1 ≤ payload.length)
    (hshort : shortOk = true ∨ LDNS_HEADER_SIZE ≤ payload.length)
    (hInv : tcpReadInv payload toggle cap s)
    (h : TcpReadStep shortOk toggle doClose cap (tcpWireOf payload) s t) :
    tcpReadInv payload toggle cap t := by
  cases h with
  | hdrStep r hdrop hrd hbc hr hs =>
    by_cases hr0 : r = 0
    · left
      simp [tcpReadHdr, hr0, dropState]
    rcases hInv with hd | ⟨hcbs, _, hsp, hbp, hct, hbl, _, hb0⟩ |
        ⟨_, h2, _⟩ | ⟨_, hbc0, _, _, hsp, _⟩
    · rw [hd] at hdrop; cases hdrop
    · -- phase 1: receiving length bytes
      by_cases h2 : s.tcpByteCount + r = 2
      · -- both length bytes now present: validation passes
        have hdm := Nat.div_add_mod payload.length 256
        have hlenv : payload.length / 256 * 256 + payload.length % 256 =
            payload.length := by omega
        have hnc : ¬(cap < payload.length) := by omega
        have hg1 : (tcpWireOf payload)[s.streamPos + r - 1]?.getD 0 =
            payload.length % 256 := by
          rw [hsp, show s.tcpByteCount + r - 1 = 1 by omega]
          simp [tcpWireOf]
        have hres : tcpReadHdr shortOk doClose cap (tcpWireOf payload) r s =
            { s with b0 := payload.length / 256, b1 := payload.length % 256,
                     tcpByteCount := 2, streamPos := s.streamPos + r,
                     bufLimit := payload.length } := by
          by_cases h0 : s.tcpByteCount = 0
          · have hg0 : (tcpWireOf payload)[s.streamPos]?.getD 0 =
                payload.length / 256 := by
              rw [hsp, h0]
              simp [tcpWireOf, Nat.mod_eq_of_lt hL]
            have hr2 : r = 2 := by omega
            have hg1n : (tcpWireOf payload)[s.streamPos + 1]?.getD 0 =
                payload.length % 256 := by
              rw [hsp, h0]
              simp [tcpWireOf]
            rcases hshort with hsh | hsh
            · simp [tcpReadHdr, hr0, h2, h0, hr2, hg0, hg1n, hlenv, hnc, hsh]
            · have hns2 : ¬(payload.length < LDNS_HEADER_SIZE) := by omega
              simp [tcpReadHdr, hr0, h2, h0, hr2, hg0, hg1n, hlenv, hnc, hns2]
          · have hb0v : s.b0 = payload.length / 256 := hb0 (by omega)
            rcases hshort with hsh | hsh
            · simp [tcpReadHdr, hr0, h2, h0, hb0v, hg1, hlenv, hnc, hsh]
            · have hns2 : ¬(payload.length < LDNS_HEADER_SIZE) := by omega
              simp [tcpReadHdr, hr0, h2, h0, hb0v, hg1, hlenv, hnc, hns2]
        right; right; left
        rw [hres]
        refine ⟨hcbs, rfl, ?_, ?_, rfl, ?_, hrd⟩
        · show s.streamPos + r = 2 + s.bufPos
          rw [hsp, hbp]
          omega
        · show s.bufPos < payload.length
          omega
        · show s.content = payload.take s.bufPos
          rw [hct, hbp]
          rfl
      · -- still short of two length bytes: byte count becomes 1
        have hbc0 : s.tcpByteCount = 0 := by omega
        have hr1 : r = 1 := by omega
        subst hr1
        have hres : tcpReadHdr shortOk doClose cap (tcpWireOf payload) 1 s =
            { s with b0 := (tcpWireOf payload).getD s.streamPos 0,
                     tcpByteCount := s.tcpByteCount + 1,
                     streamPos := s.streamPos + 1 } := by
          simp [tcpReadHdr, hbc0]
        right; left
        rw [hres]
        refine ⟨hcbs, ?_, ?_, hbp, hct, hbl, hrd, ?_⟩
        · show s.tcpByteCount + 1 < 2
          omega
        · show s.streamPos + 1 = s.tcpByteCount + 1
          omega
        · intro _
          show (tcpWireOf payload).getD s.streamPos 0 = payload.length / 256
          rw [hsp, hbc0]
          exact tcpWireOf_getD_zero payload hL
    · omega
    · -- phase 3: stream exhausted, only a zero-length recv is possible
      rw [tcpWireOf_length] at hs
      omega
  | bodyStep r hdrop hrd hbc hr hs =>
    by_cases hr0 : r = 0
    · left
      simp [tcpReadBody, hr0, dropState]
    rcases hInv with hd | ⟨_, hlt, _⟩ |
        ⟨hcbs, h2, hsp, hpl, hbl, hct, _⟩ | ⟨_, hbc0, _⟩
    · rw [hd] at hdrop; cases hdrop
    · omega
    · -- phase 2: body bytes arriving
      have hctv : s.content ++ ((tcpWireOf payload).drop s.streamPos).take r =
          payload.take (s.bufPos + r) := by
        rw [hct, hsp, tcpWireOf_drop, ← List.take_add]
      have hrle : s.bufPos + r ≤ payload.length := by
        rw [hbl] at hr; omega
      by_cases hfin : payload.length ≤ s.bufPos + r
      · -- message complete: tcp_callback_reader fires
        have hall : s.bufPos + r = payload.length := by omega
        have hres : tcpReadBody toggle doClose (tcpWireOf payload) r s =
            tcpCallbackReaderStep toggle
              { s with content := payload.take (s.bufPos + r),
                       bufPos := s.bufPos + r, streamPos := s.streamPos + r } := by
          simp [tcpReadBody, hr0, hbl, hfin, hctv]
        right; right; right
        rw [hres]
        cases toggle with
        | false =>
          refine ⟨?_, rfl, rfl, ?_, ?_, ?_⟩
          · show s.cbs ++ [(NeStatus.noerror, some (payload.take (s.bufPos + r)))] =
              [(NeStatus.noerror, some payload)]
            rw [hcbs, hall, List.take_length]
            rfl
          · show s.bufPos + r = payload.length
            exact hall
          · show s.streamPos + r = 2 + payload.length
            omega
          · show s.tcpIsReading = !false
            rw [hrd]
            rfl
        | true =>
          refine ⟨?_, rfl, rfl, ?_, ?_, rfl⟩
          · show s.cbs ++ [(NeStatus.noerror, some (payload.take (s.bufPos + r)))] =
              [(NeStatus.noerror, some payload)]
            rw [hcbs, hall, List.take_length]
            rfl
          · show s.bufPos + r = payload.length
            exact hall
          · show s.streamPos + r = 2 + payload.length
            omega
      · -- more body bytes to come
        have hres : tcpReadBody toggle doClose (tcpWireOf payload) r s =
            { s with content := payload.take (s.bufPos + r),
                     bufPos := s.bufPos + r, streamPos := s.streamPos + r } := by
          simp [tcpReadBody, hr0, hbl, hfin, hctv]
        right; right; left
        rw [hres]
        refine ⟨hcbs, h2, ?_, ?_, hbl, rfl, hrd⟩
        · show s.streamPos + r = 2 + (s.bufPos + r)
          omega
        · show s.bufPos + r < payload.length
          omega
    · omega

theorem tcpReadInv_reach {payload : List Nat} {shortOk toggle doClose : Bool}
    {cap : Nat} {s t : ReadSt}
    (hL : payload.length < 65536) (hcap : payload.length ≤ cap)
    (hone : 1 ≤ payload.length)
    (hshort : shortOk = true ∨ LDNS_HEADER_SIZE ≤ payload.length)
    (hInv : tcpReadInv payload toggle cap s)
    (h : TcpReadReach shortOk toggle doClose cap (tcpWireOf payload) s t) :
    tcpReadInv payload toggle cap t := by
  induction h with
  | refl => exact hInv
  | tail _ hstep ih => exact tcpReadInv_step hL hcap hone hshort ih hstep

/-- C3: feeding a well-formed frame (2-byte big-endian length prefix of
`L = payload.length`, then exactly `L` payload bytes) through the TCP
read path, under any split into partial reads, reconstructs the
payload: once the whole frame has been consumed (and no end-of-stream
or error path was taken), the callback has been invoked exactly once,
with `NETEVENT_NOERROR` and the payload, `tcp_byte_count` is reset to 0
and the flipped buffer holds the message; the handler is in reading
mode again unless `tcp_do_toggle_rw` switched it to the write phase.
The validity hypotheses are those of the code: the declared length fits
the buffer and — unless short messages are allowed (`comm_local`) — is
at least `LDNS_HEADER_SIZE`. -/
theorem C3_read_path_reconstructs (payload : List Nat)
    (shortOk toggle doClose : Bool) (cap : Nat)
    (hL : payload.length < 65536) (hcap : payload.length ≤ cap)
    (hmin : if shortOk then 1 ≤ payload.length
      else LDNS_HEADER_SIZE ≤ payload.length)
    (s : ReadSt)
    (h : TcpReadReach shortOk toggle doClose cap (tcpWireOf payload)
      (readInit cap) s)
    (hfull : s.streamPos = payload.length + 2) (hnd : s.dropped = false) :
    s.cbs = [(NeStatus.noerror, some payload)] ∧ s.tcpByteCount = 0 ∧
    s.bufPos = 0 ∧ s.bufLimit = payload.length ∧
    s.tcpIsReading = (!toggle) := by
  have hone : 1 ≤ payload.length := by
    cases shortOk with
    | true => exact hmin
    | false =>
      simp only [Bool.false_eq_true, if_false, LDNS_HEADER_SIZE] at hmin
      omega
  have hshort : shortOk = true ∨ LDNS_HEADER_SIZE ≤ payload.length := by
    cases shortOk with
    | true => left; rfl
    | false => right; exact hmin
  rcases tcpReadInv_reach hL hcap hone hshort
      (tcpReadInv_init payload toggle cap) h with
    hd | ⟨_, hlt, hsp, _⟩ | ⟨_, _, hsp, hpl, _⟩ |
    ⟨hcbs, hbc, hbp, hbl, _, hrd⟩
  · rw [hd] at hnd; cases hnd
  · rw [hfull] at hsp; omega
  · rw [hfull] at hsp; omega
  · exact ⟨hcbs, hbc, hbp, hbl, hrd⟩

/-- Witness for C3: the spec's example — the frame
`[0x00, 0x05, 'h', 'e', 'l', 'l', 'o']` split as 3 bytes then 4 bytes
(the length `recv` takes 2 bytes, the body `recv`s take 1 and then 4),
on a short-messages-allowed handler that does not toggle direction. -/
theorem C3_read_path_reconstructs_witness :
    (tcpReadBody false false (tcpWireOf [104, 101, 108, 108, 111]) 4
      (tcpReadBody false false (tcpWireOf [104, 101, 108, 108, 111]) 1
        (tcpReadHdr true false 10 (tcpWireOf [104, 101, 108, 108, 111]) 2
          (readInit 10)))).cbs =
        [(NeStatus.noerror, some [104, 101, 108, 108, 111])] ∧
    (tcpReadBody false false (tcpWireOf [104, 101, 108, 108, 111]) 4
      (tcpReadBody false false (tcpWireOf [104, 101, 108, 108, 111]) 1
        (tcpReadHdr true false 10 (tcpWireOf [104, 101, 108, 108, 111]) 2
          (readInit 10)))).tcpByteCount = 0 ∧
    (tcpReadBody false false (tcpWireOf [104, 101, 108, 108, 111]) 4
      (tcpReadBody false false (tcpWireOf [104, 101, 108, 108, 111]) 1
        (tcpReadHdr true false 10 (tcpWireOf [104, 101, 108, 108, 111]) 2
          (readInit 10)))).bufPos = 0 ∧
    (tcpReadBody false false (tcpWireOf [104, 101, 108, 108, 111]) 4
      (tcpReadBody false false (tcpWireOf [104, 101, 108, 108, 111]) 1
        (tcpReadHdr true false 10 (tcpWireOf [104, 101, 108, 108, 111]) 2
          (readInit 10)))).bufLimit = 5 ∧
    (tcpReadBody false false (tcpWireOf [104, 101, 108, 108, 111]) 4
      (tcpReadBody false false (tcpWireOf [104, 101, 108, 108, 111]) 1
        (tcpReadHdr true false 10 (tcpWireOf [104, 101, 108, 108, 111]) 2
          (readInit 10)))).tcpIsReading = (!false) :=
  C3_read_path_reconstructs [104, 101, 108, 108, 111] true false false 10
    (by decide) (by decide) (by decide) _
    (TcpReadReach.tail (TcpReadReach.tail (TcpReadReach.tail
        (TcpReadReach.refl _)
        (TcpReadStep.hdrStep _ 2 (by decide) (by decide) (by decide)
          (by decide) (by decide)))
      (TcpReadStep.bodyStep _ 1 (by decide) (by decide) (by decide)
        (by decide) (by decide)))
      (TcpReadStep.bodyStep _ 4 (by decide) (by decide) (by decide)
        (by decide) (by decide)))
    (by decide) (by decide)

/-- The invariant of the read machine on a stream whose declared length
fails validation: no `NETEVENT_NOERROR` callback is ever delivered, and
as soon as both length bytes are in, the connection is dropped and the
handler reclaimed. -/
def tcpReadBadInv (stream : List Nat) (s : ReadSt) : Prop :=
  (∀ e ∈ s.cbs, e = ((NeStatus.closed : NeStatus), (none : Option (List Nat)))) ∧
  (2 ≤ s.tcpByteCount → s.dropped = true ∧ s.reclaimed = true) ∧
  (s.dropped = false →
    s.tcpByteCount < 2 ∧ s.streamPos = s.tcpByteCount ∧ s.cbs = [] ∧
    (s.tcpByteCount = 1 → s.b0 = stream.getD 0 0))

theorem tcpReadBadInv_dropState {stream : List Nat} {doClose : Bool} {s0 : ReadSt}
    (hcb : ∀ e ∈ s0.cbs, e = ((NeStatus.closed : NeStatus), (none : Option (List Nat)))) :
    tcpReadBadInv stream (dropState doClose s0) := by
  refine ⟨?_, fun _ => ⟨rfl, rfl⟩, ?_⟩
  · intro e he
    simp only [dropState, List.mem_append] at he
    rcases he with he | he
    · exact hcb e he
    · cases doClose with
      | true => simp at he
      | false =>
        simp at he
        rw [he]
  · intro hc
    simp [dropState] at hc

theorem tcpReadBadInv_init (stream : List Nat) (cap : Nat) :
    tcpReadBadInv stream (readInit cap) := by
  refine ⟨?_, ?_, ?_⟩
  · intro e he
    simp [readInit] at he
  · intro hc
    simp [readInit] at hc
  · intro _
    refine ⟨by show (0 : Nat) < 2; omega, rfl, rfl, ?_⟩
    intro hc
    simp [readInit] at hc

theorem tcpReadBadInv_step {stream : List Nat} {shortOk toggle doClose : Bool}
    {cap : Nat} {s t : ReadSt}
    (hbad : cap < stream.getD 0 0 * 256 + stream.getD 1 0 ∨
      (shortOk = false ∧ stream.getD 0 0 * 256 + stream.getD 1 0 < LDNS_HEADER_SIZE))
    (hInv : tcpReadBadInv stream s)
    (h : TcpReadStep shortOk toggle doClose cap stream s t) :
    tcpReadBadInv stream t := by
  obtain ⟨hcb, hdr2, hnd⟩ := hInv
  cases h with
  | bodyStep r hdrop hrd hbc hr hs =>
    obtain ⟨hlt, _⟩ := hnd hdrop
    omega
  | hdrStep r hdrop hrd hbc hr hs =>
    obtain ⟨hlt, hsp, hcbs, hb0⟩ := hnd hdrop
    by_cases hr0 : r = 0
    · have hres : tcpReadHdr shortOk doClose cap stream r s =
          dropState doClose s := by
        simp [tcpReadHdr, hr0]
      rw [hres]
      exact tcpReadBadInv_dropState hcb
    by_cases h2 : s.tcpByteCount + r = 2
    · -- the length is now complete and validation drops the connection
      have hg0 : (if s.tcpByteCount = 0 then stream[s.streamPos]?.getD 0
          else s.b0) = stream.getD 0 0 := by
        by_cases h0 : s.tcpByteCount = 0
        · rw [if_pos h0, hsp, h0]
          simp [List.getD_eq_getElem?_getD]
        · rw [if_neg h0]
          exact hb0 (by omega)
      have hg1 : stream[s.streamPos + r - 1]?.getD 0 = stream.getD 1 0 := by
        rw [hsp, show s.tcpByteCount + r - 1 = 1 by omega]
        simp [List.getD_eq_getElem?_getD]
      rcases hbad with hband | ⟨hsf, hband⟩
      · have hband2 : cap < stream[0]?.getD 0 * 256 + stream[1]?.getD 0 := by
          simpa [List.getD_eq_getElem?_getD] using hband
        have hres : tcpReadHdr shortOk doClose cap stream r s =
            dropState doClose
              { s with b0 := stream.getD 0 0, b1 := stream.getD 1 0,
                       tcpByteCount := 2, streamPos := s.streamPos + r } := by
          simp [tcpReadHdr, hr0, h2, hg0, hg1, hband2]
        rw [hres]
        exact tcpReadBadInv_dropState hcb
      · by_cases hcapd : cap < stream.getD 0 0 * 256 + stream.getD 1 0
        · have hcapd2 : cap < stream[0]?.getD 0 * 256 + stream[1]?.getD 0 := by
            simpa [List.getD_eq_getElem?_getD] using hcapd
          have hres : tcpReadHdr shortOk doClose cap stream r s =
              dropState doClose
                { s with b0 := stream.getD 0 0, b1 := stream.getD 1 0,
                         tcpByteCount := 2, streamPos := s.streamPos + r } := by
            simp [tcpReadHdr, hr0, h2, hg0, hg1, hcapd2]
          rw [hres]
          exact tcpReadBadInv_dropState hcb
        · have hcapd2 : ¬(cap < stream[0]?.getD 0 * 256 + stream[1]?.getD 0) := by
            simpa [List.getD_eq_getElem?_getD] using hcapd
          have hband2 : stream[0]?.getD 0 * 256 + stream[1]?.getD 0 <
              LDNS_HEADER_SIZE := by
            simpa [List.getD_eq_getElem?_getD] using hband
          have hres : tcpReadHdr shortOk doClose cap stream r s =
              dropState doClose
                { s with b0 := stream.getD 0 0, b1 := stream.getD 1 0,
                         tcpByteCount := 2, streamPos := s.streamPos + r,
                         bufLimit := stream.getD 0 0 * 256 + stream.getD 1 0 } := by
            simp [tcpReadHdr, hr0, h2, hg0, hg1, hcapd2, hsf, hband2]
          rw [hres]
          exact tcpReadBadInv_dropState hcb
    · -- only the first length byte arrived
      have hbc0 : s.tcpByteCount = 0 := by omega
      have hr1 : r = 1 := by omega
      subst hr1
      have hres : tcpReadHdr shortOk doClose cap stream 1 s =
          { s with b0 := stream.getD s.streamPos 0,
                   tcpByteCount := s.tcpByteCount + 1,
                   streamPos := s.streamPos + 1 } := by
        simp [tcpReadHdr, hbc0]
      rw [hres]
      refine ⟨hcb, ?_, ?_⟩
      · intro hc
        exact absurd hc (by show ¬(2 ≤ s.tcpByteCount + 1); omega)
      · intro _
        refine ⟨by show s.tcpByteCount + 1 < 2; omega,
          by show s.streamPos + 1 = s.tcpByteCount + 1; omega, hcbs, ?_⟩
        intro _
        show stream.getD s.streamPos 0 = stream.getD 0 0
        rw [hsp, hbc0]

theorem tcpReadBadInv_reach {stream : List Nat} {shortOk toggle doClose : Bool}
    {cap : Nat} {s t : ReadSt}
    (hbad : cap < stream.getD 0 0 * 256 + stream.getD 1 0 ∨
      (shortOk = false ∧ stream.getD 0 0 * 256 + stream.getD 1 0 < LDNS_HEADER_SIZE))
    (hInv : tcpReadBadInv stream s)
    (h : TcpReadReach shortOk toggle doClose cap stream s t) :
    tcpReadBadInv stream t := by
  induction h with
  | refl => exact hInv
  | tail _ hstep ih => exact tcpReadBadInv_step hbad ih hstep

/-- C4: on a stream whose decoded 2-byte big-endian length exceeds the
buffer capacity — or falls below `LDNS_HEADER_SIZE` while short
messages are not allowed — every state the TCP read path can reach has
delivered no `NETEVENT_NOERROR` callback and no reply context at all
(any callback is the `NETEVENT_CLOSED`, NULL-context notification of
the drop), and the moment both length bytes are in, the handler has
been dropped and reclaimed. -/
theorem C4_invalid_length_drops_connection (stream : List Nat)
    (shortOk toggle doClose : Bool) (cap : Nat)
    (hbad : cap < stream.getD 0 0 * 256 + stream.getD 1 0 ∨
      (shortOk = false ∧ stream.getD 0 0 * 256 + stream.getD 1 0 < LDNS_HEADER_SIZE))
    (s : ReadSt)
    (h : TcpReadReach shortOk toggle doClose cap stream (readInit cap) s) :
    (∀ e ∈ s.cbs, e.1 ≠ NeStatus.noerror ∧ e.2 = none) ∧
    (2 ≤ s.tcpByteCount → s.dropped = true ∧ s.reclaimed = true) := by
  obtain ⟨hcb, hdr2, _⟩ := tcpReadBadInv_reach hbad (tcpReadBadInv_init stream cap) h
  refine ⟨?_, hdr2⟩
  intro e he
  rw [hcb e he]
  exact ⟨by simp, rfl⟩

/-- Witness for C4: capacity 3, stream starting `[0x00, 0x64]`
(declared length 100 > 3), short messages not allowed; the two length
bytes arrive in one `recv`. -/
theorem C4_invalid_length_drops_connection_witness :
    (∀ e ∈ (tcpReadHdr false false 3 [0, 100] 2 (readInit 3)).cbs,
      e.1 ≠ NeStatus.noerror ∧ e.2 = none) ∧
    (2 ≤ (tcpReadHdr false false 3 [0, 100] 2 (readInit 3)).tcpByteCount →
      (tcpReadHdr false false 3 [0, 100] 2 (readInit 3)).dropped = true ∧
      (tcpReadHdr false false 3 [0, 100] 2 (readInit 3)).reclaimed = true) :=
  C4_invalid_length_drops_connection [0, 100] false false false 3
    (by decide) _
    (TcpReadReach.tail (TcpReadReach.refl _)
      (TcpReadStep.hdrStep _ 2 (by decide) (by decide) (by decide)
        (by decide) (by decide)))

theorem udpRecvCount_le (stop : UdpRecvOutcome → Bool) (n : Nat)
    (outs : List UdpRecvOutcome) : udpRecvCount stop n outs ≤ n := by
  induction n generalizing outs with
  | zero => simp [udpRecvCount]
  | succ m ih =>
    cases outs with
    | nil => simp [udpRecvCount]
    | cons o rest =>
      simp only [udpRecvCount]
      split
      · omega
      · have := ih rest
        omega

theorem udpRecvCount_eq_min (stop : UdpRecvOutcome → Bool) (n : Nat)
    (outs : List UdpRecvOutcome) (hlen : n ≤ outs.length) :
    udpRecvCount stop n outs = min n (outs.findIdx stop + 1) := by
  induction n generalizing outs with
  | zero => simp [udpRecvCount]
  | succ m ih =>
    cases outs with
    | nil => simp at hlen
    | cons o rest =>
      have hrest : m ≤ rest.length := by simpa using hlen
      by_cases hso : stop o = true
      · have e1 : udpRecvCount stop (m + 1) (o :: rest) = 1 := by
          simp [udpRecvCount, hso]
        have e2 : List.findIdx stop (o :: rest) = 0 := by
          simp [List.findIdx_cons, hso]
        rw [e1, e2]
        omega
      · have hso' : stop o = false := by
          cases hstop : stop o
          · rfl
          · exact absurd hstop hso
        have e1 : udpRecvCount stop (m + 1) (o :: rest) =
            1 + udpRecvCount stop m rest := by
          simp [udpRecvCount, hso']
        have e2 : List.findIdx stop (o :: rest) = List.findIdx stop rest + 1 := by
          simp [List.findIdx_cons, hso']
        rw [e1, e2, ih rest hrest]
        omega

/-- Counterexample to C6 as stated: on an ancillary UDP endpoint with
descriptor 3, a first datagram whose callback rebinds the descriptor to
5 (neither the old descriptor nor -1) does not stop the ancillary loop
— it performs a second receive — while the plain loop, which compares
the descriptor before and after the callback, stops after one receive
on the same oracle.  The ancillary handler checks only `fd == -1`. -/
theorem C6_counterexample_ancil_rebind_continues :
    commPointUdpCallbackRecvs 3
      (UdpRecvOutcome.ok 5 :: List.replicate 99 UdpRecvOutcome.wouldblock) = 1 ∧
    commPointUdpAncilCallbackRecvs
      (UdpRecvOutcome.ok 5 :: List.replicate 99 UdpRecvOutcome.wouldblock) = 2 ∧
    (5 : Int) ≠ 3 ∧ (5 : Int) ≠ -1 := by
  decide

/-- C6 (amended): both UDP readiness handlers perform at most
`NUM_UDP_PER_SELECT` (100) receives per notification, and each performs
exactly `min 100 (first stopping outcome + 1)` receives: a would-block
receive (`EAGAIN`/`EINTR`) and a fatally failing receive stop both
loops; a received datagram stops the plain loop when the callback
closed or rebound the endpoint's descriptor (compared before/after the
callback), but stops the ancillary loop only when the descriptor is -1
(closed) — a rebind does not stop the ancillary loop. -/
theorem C6_udp_batch_loops (fd : Int) (outs : List UdpRecvOutcome)
    (hlen : NUM_UDP_PER_SELECT ≤ outs.length) :
    commPointUdpCallbackRecvs fd outs ≤ NUM_UDP_PER_SELECT ∧
    commPointUdpAncilCallbackRecvs outs ≤ NUM_UDP_PER_SELECT ∧
    commPointUdpCallbackRecvs fd outs =
      min NUM_UDP_PER_SELECT (outs.findIdx (udpStopsLoop fd) + 1) ∧
    commPointUdpAncilCallbackRecvs outs =
      min NUM_UDP_PER_SELECT (outs.findIdx udpAncilStopsLoop + 1) :=
  ⟨udpRecvCount_le _ _ _, udpRecvCount_le _ _ _,
   udpRecvCount_eq_min _ _ _ hlen, udpRecvCount_eq_min _ _ _ hlen⟩

/-- Witness for C6 (amended): 100 datagrams that never close or rebind
descriptor 3 — both loops run the full batch of 100 receives. -/
theorem C6_udp_batch_loops_witness :
    commPointUdpCallbackRecvs 3 (List.replicate 100 (UdpRecvOutcome.ok 3)) ≤
      NUM_UDP_PER_SELECT ∧
    commPointUdpAncilCallbackRecvs (List.replicate 100 (UdpRecvOutcome.ok 3)) ≤
      NUM_UDP_PER_SELECT ∧
    commPointUdpCallbackRecvs 3 (List.replicate 100 (UdpRecvOutcome.ok 3)) =
      min NUM_UDP_PER_SELECT
        ((List.replicate 100 (UdpRecvOutcome.ok 3)).findIdx (udpStopsLoop 3) + 1) ∧
    commPointUdpAncilCallbackRecvs (List.replicate 100 (UdpRecvOutcome.ok 3)) =
      min NUM_UDP_PER_SELECT
        ((List.replicate 100 (UdpRecvOutcome.ok 3)).findIdx udpAncilStopsLoop + 1) :=
  C6_udp_batch_loops 3 (List.replicate 100 (UdpRecvOutcome.ok 3)) (by decide)

/-- Counterexample to C7 as stated: a direction-toggling inbound
handler whose stored timeout is the 120-second query timeout re-arms
for reading after write completion with that timeout still armed
(`event_add` receives `c->timeout`, since `sec == -1` means "leave the
timeout unchanged"), not with no timeout. -/
theorem C7_counterexample_timeout_stays_armed :
    (tcpCallbackWriter 512
      { fd := 7, tcpIsReading := false, tcpByteCount := 5, bufPos := 3,
        bufLimit := 9, timeout := some 120, armed := some 120,
        listening := true, evRead := false, tcpDoClose := false,
        tcpDoToggleRw := true }).armed = some 120 ∧
    some (120 : Int) ≠ (none : Option Int) := by
  decide

/-- C7 (amended): completing the full write frame on a handler with
direction-toggling enabled clears the buffer, flips the handler to
reading mode, resets `tcp_byte_count` to 0, and re-arms the handler for
reading with the timeout left unchanged: the stored timeout value is
re-armed by the `event_add` of `comm_point_start_listening(c, -1, -1)`,
it is not cleared. -/
theorem C7_write_completion_rearm (cap : Nat) (h : TcpHandler)
    (ht : h.tcpDoToggleRw = true) :
    (tcpCallbackWriter cap h).bufPos = 0 ∧
    (tcpCallbackWriter cap h).bufLimit = cap ∧
    (tcpCallbackWriter cap h).tcpIsReading = true ∧
    (tcpCallbackWriter cap h).tcpByteCount = 0 ∧
    (tcpCallbackWriter cap h).listening = true ∧
    (tcpCallbackWriter cap h).evRead = true ∧
    (tcpCallbackWriter cap h).timeout = h.timeout ∧
    (tcpCallbackWriter cap h).armed = h.timeout := by
  refine ⟨?_, ?_, ?_, ?_, ?_, ?_, ?_, ?_⟩ <;>
    simp [tcpCallbackWriter, commPointStopListening, commPointStartListening, ht]

/-- Witness for C7 (amended) on a concrete in-write handler. -/
theorem C7_write_completion_rearm_witness :
    (tcpCallbackWriter 512
      { fd := 7, tcpIsReading := false, tcpByteCount := 5, bufPos := 3,
        bufLimit := 9, timeout := some 120, armed := some 120,
        listening := true, evRead := false, tcpDoClose := false,
        tcpDoToggleRw := true }).bufPos = 0 ∧
    (tcpCallbackWriter 512
      { fd := 7, tcpIsReading := false, tcpByteCount := 5, bufPos := 3,
        bufLimit := 9, timeout := some 120, armed := some 120,
        listening := true, evRead := false, tcpDoClose := false,
        tcpDoToggleRw := true }).bufLimit = 512 ∧
    (tcpCallbackWriter 512
      { fd := 7, tcpIsReading := false, tcpByteCount := 5, bufPos := 3,
        bufLimit := 9, timeout := some 120, armed := some 120,
        listening := true, evRead := false, tcpDoClose := false,
        tcpDoToggleRw := true }).tcpIsReading = true ∧
    (tcpCallbackWriter 512
      { fd := 7, tcpIsReading := false, tcpByteCount := 5, bufPos := 3,
        bufLimit := 9, timeout := some 120, armed := some 120,
        listening := true, evRead := false, tcpDoClose := false,
        tcpDoToggleRw := true }).tcpByteCount = 0 ∧
    (tcpCallbackWriter 512
      { fd := 7, tcpIsReading := false, tcpByteCount := 5, bufPos := 3,
        bufLimit := 9, timeout := some 120, armed := some 120,
        listening := true, evRead := false, tcpDoClose := false,
        tcpDoToggleRw := true }).listening = true ∧
    (tcpCallbackWriter 512
      { fd := 7, tcpIsReading := false, tcpByteCount := 5, bufPos := 3,
        bufLimit := 9, timeout := some 120, armed := some 120,
        listening := true, evRead := false, tcpDoClose := false,
        tcpDoToggleRw := true }).evRead = true ∧
    (tcpCallbackWriter 512
      { fd := 7, tcpIsReading := false, tcpByteCount := 5, bufPos := 3,
        bufLimit := 9, timeout := some 120, armed := some 120,
        listening := true, evRead := false, tcpDoClose := false,
        tcpDoToggleRw := true }).timeout = some 120 ∧
    (tcpCallbackWriter 512
      { fd := 7, tcpIsReading := false, tcpByteCount := 5, bufPos := 3,
        bufLimit := 9, timeout := some 120, armed := some 120,
        listening := true, evRead := false, tcpDoClose := false,
        tcpDoToggleRw := true }).armed = some 120 :=
  C7_write_completion_rearm 512
    { fd := 7, tcpIsReading := false, tcpByteCount := 5, bufPos := 3,
      bufLimit := 9, timeout := some 120, armed := some 120,
      listening := true, evRead := false, tcpDoClose := false,
      tcpDoToggleRw := true } (by decide)

theorem reclaimTcpHandler_handlers_self {n : Nat} (L : TcpListener n) (i : Fin n) :
    (reclaimTcpHandler L i).handlers i = commPointClose (L.handlers i) := by
  unfold reclaimTcpHandler
  split <;> simp [Function.update_same]

theorem reclaimTcpHandler_freeList {n : Nat} (L : TcpListener n) (i : Fin n) :
    (reclaimTcpHandler L i).freeList = i :: L.freeList := by
  unfold reclaimTcpHandler
  split <;> rfl

/-- C8: a deadline (`EV_TIMEOUT`) firing on an in-use TCP handler
reclaims it — the handler's fd becomes -1 and it is pushed on its
listener's free list — and invokes the upward callback exactly once
with TIMEOUT status (never CLOSED for this event); when the suppress
flag `tcp_do_close` is set, the upward callback is skipped entirely
while the reclaim still happens. -/
theorem C8_timeout_event_reclaims_and_reports {n : Nat} (L : TcpListener n)
    (i : Fin n) (_hin : i ∉ L.freeList) :
    ((tcpHandleTimeoutEvent L i).1.handlers i).fd = -1 ∧
    i ∈ (tcpHandleTimeoutEvent L i).1.freeList ∧
    ((L.handlers i).tcpDoClose = false →
      (tcpHandleTimeoutEvent L i).2 = [NeStatus.timeout]) ∧
    ((L.handlers i).tcpDoClose = true → (tcpHandleTimeoutEvent L i).2 = []) ∧
    NeStatus.closed ∉ (tcpHandleTimeoutEvent L i).2 := by
  refine ⟨?_, ?_, ?_, ?_, ?_⟩
  · show ((reclaimTcpHandler L i).handlers i).fd = -1
    rw [reclaimTcpHandler_handlers_self]
    exact commPointClose_fd _
  · show i ∈ (reclaimTcpHandler L i).freeList
    rw [reclaimTcpHandler_freeList]
    exact List.mem_cons_self i L.freeList
  · intro hdc
    simp [tcpHandleTimeoutEvent, hdc]
  · intro hdc
    simp [tcpHandleTimeoutEvent, hdc]
  · cases hdc : (L.handlers i).tcpDoClose <;>
      simp [tcpHandleTimeoutEvent, hdc]

/-- Witness for C8: a one-handler pool whose handler is in use (free
list empty) when its timeout fires. -/
theorem C8_timeout_event_reclaims_and_reports_witness :
    ((tcpHandleTimeoutEvent
        { handlers := fun _ => { initHandler 10 with fd := 4 },
          freeList := ([] : List (Fin 1)), listening := false } 0).1.handlers 0).fd
      = -1 ∧
    (0 : Fin 1) ∈ (tcpHandleTimeoutEvent
        { handlers := fun _ => { initHandler 10 with fd := 4 },
          freeList := ([] : List (Fin 1)), listening := false } 0).1.freeList ∧
    ((({ handlers := fun _ => { initHandler 10 with fd := 4 },
          freeList := ([] : List (Fin 1)), listening := false } :
        TcpListener 1).handlers 0).tcpDoClose = false →
      (tcpHandleTimeoutEvent
        { handlers := fun _ => { initHandler 10 with fd := 4 },
          freeList := ([] : List (Fin 1)), listening := false } 0).2
        = [NeStatus.timeout]) ∧
    ((({ handlers := fun _ => { initHandler 10 with fd := 4 },
          freeList := ([] : List (Fin 1)), listening := false } :
        TcpListener 1).handlers 0).tcpDoClose = true →
      (tcpHandleTimeoutEvent
        { handlers := fun _ => { initHandler 10 with fd := 4 },
          freeList := ([] : List (Fin 1)), listening := false } 0).2 = []) ∧
    NeStatus.closed ∉ (tcpHandleTimeoutEvent
        { handlers := fun _ => { initHandler 10 with fd := 4 },
          freeList := ([] : List (Fin 1)), listening := false } 0).2 :=
  C8_timeout_event_reclaims_and_reports
    { handlers := fun _ => { initHandler 10 with fd := 4 },
      freeList := ([] : List (Fin 1)), listening := false } 0
    (by simp)

/-- C10: dropping a reply whose endpoint is of UDP type returns without
changing any state — the world, including the UDP descriptor and its
event registration, is exactly what it was; a NULL reply context is
likewise a no-op; only a TCP handler is forcibly reclaimed (closed, fd
-1, returned to its listener's free list), and even then the UDP
endpoint is untouched. -/
theorem C10_drop_reply_udp_is_noop (n : Nat) (w : DropWorld n) (i : Fin n) :
    commPointDropReply w (some (ReplyTarget.udpReply)) = w ∧
    commPointDropReply w none = w ∧
    ((commPointDropReply w (some (ReplyTarget.tcpReply i))).lis.handlers i).fd
      = -1 ∧
    i ∈ (commPointDropReply w (some (ReplyTarget.tcpReply i))).lis.freeList ∧
    (commPointDropReply w (some (ReplyTarget.tcpReply i))).udp = w.udp := by
  refine ⟨rfl, rfl, ?_, ?_, rfl⟩
  · show ((reclaimTcpHandler w.lis i).handlers i).fd = -1
    rw [reclaimTcpHandler_handlers_self]
    exact commPointClose_fd _
  · show i ∈ (reclaimTcpHandler w.lis i).freeList
    rw [reclaimTcpHandler_freeList]
    exact List.mem_cons_self i w.lis.freeList

/-- Counterexample to C9 as stated: at verbosity 1 — below `VERB_ALGO`,
i.e. within the regime the plain variant treats as "low" and silences —
an `ENETUNREACH` failure is silent in `comm_point_send_udp_msg` but is
logged by `comm_point_send_udp_msg_if`, which has no `ENETUNREACH`
special case and goes through its ordinary `VERB_OPS` error logging. -/
theorem C9_counterexample_msg_if_logs_enetunreach :
    (commPointSendUdpMsg 5 1 (UdpSendResult.failed ENETUNREACH)).logs = [] ∧
    (commPointSendUdpMsgIf 5 1 (UdpSendResult.failed ENETUNREACH)).logs
      = [VERB_OPS, VERB_OPS] ∧
    (commPointSendUdpMsgIf 5 1 (UdpSendResult.failed ENETUNREACH)).logs ≠ [] ∧
    (1 : Nat) < VERB_ALGO := by
  decide

/-- C9 (amended): both UDP send variants attempt exactly the buffer's
remaining bytes in their single syscall and report success only when
all of them were sent; a short write is an error — failure returned,
`log_err` line emitted, no byte-wise retry; a send failing with
`ENETUNREACH` at verbosity below `VERB_ALGO` returns failure silently
without logging in the plain `sendto` variant only — the `sendmsg`
interface-bound variant has no `ENETUNREACH` case and logs through its
normal `VERB_OPS` path whenever verbosity reaches `VERB_OPS`. -/
theorem C9_udp_send_contract (remaining verbosity k : Nat) (res : UdpSendResult) :
    (commPointSendUdpMsg remaining verbosity res).attempted = remaining ∧
    (commPointSendUdpMsgIf remaining verbosity res).attempted = remaining ∧
    ((commPointSendUdpMsg remaining verbosity res).success = true ↔
      res = UdpSendResult.sent remaining) ∧
    ((commPointSendUdpMsgIf remaining verbosity res).success = true ↔
      res = UdpSendResult.sent remaining) ∧
    (k ≠ remaining →
      (commPointSendUdpMsg remaining verbosity (UdpSendResult.sent k)).success
          = false ∧
      0 ∈ (commPointSendUdpMsg remaining verbosity (UdpSendResult.sent k)).logs ∧
      (commPointSendUdpMsgIf remaining verbosity (UdpSendResult.sent k)).success
          = false ∧
      0 ∈ (commPointSendUdpMsgIf remaining verbosity (UdpSendResult.sent k)).logs) ∧
    (verbosity < VERB_ALGO →
      commPointSendUdpMsg remaining verbosity (UdpSendResult.failed ENETUNREACH) =
        { success := false, attempted := remaining, logs := [] }) ∧
    (VERB_OPS ≤ verbosity →
      (commPointSendUdpMsgIf remaining verbosity
        (UdpSendResult.failed ENETUNREACH)).logs ≠ []) := by
  refine ⟨?_, ?_, ?_, ?_, ?_, ?_, ?_⟩
  · cases res with
    | failed e =>
      simp only [commPointSendUdpMsg]
      split <;> rfl
    | sent m =>
      simp only [commPointSendUdpMsg]
      split <;> rfl
  · cases res with
    | failed e => rfl
    | sent m =>
      simp only [commPointSendUdpMsgIf]
      split <;> rfl
  · cases res with
    | failed e =>
      simp only [commPointSendUdpMsg]
      split <;> simp
    | sent m =>
      simp only [commPointSendUdpMsg]
      split
      · rename_i hm
        simp [hm]
      · rename_i hm
        simp [not_not.mp hm]
  · cases res with
    | failed e => simp [commPointSendUdpMsgIf]
    | sent m =>
      simp only [commPointSendUdpMsgIf]
      split
      · rename_i hm
        simp [hm]
      · rename_i hm
        simp [not_not.mp hm]
  · intro hk
    refine ⟨?_, ?_, ?_, ?_⟩ <;> simp [commPointSendUdpMsg, commPointSendUdpMsgIf, hk]
  · intro hv
    simp [commPointSendUdpMsg, hv]
  · intro hv
    simp [commPointSendUdpMsgIf, emits, hv]

/-- Witness for C9 (amended): 5 remaining bytes, verbosity 1, a
successful full send, with 4 as the short-write length. -/
theorem C9_udp_send_contract_witness :
    (commPointSendUdpMsg 5 1 (UdpSendResult.sent 5)).attempted = 5 ∧
    (commPointSendUdpMsgIf 5 1 (UdpSendResult.sent 5)).attempted = 5 ∧
    ((commPointSendUdpMsg 5 1 (UdpSendResult.sent 5)).success = true ↔
      UdpSendResult.sent 5 = UdpSendResult.sent 5) ∧
    ((commPointSendUdpMsgIf 5 1 (UdpSendResult.sent 5)).success = true ↔
      UdpSendResult.sent 5 = UdpSendResult.sent 5) ∧
    ((4 : Nat) ≠ 5 →
      (commPointSendUdpMsg 5 1 (UdpSendResult.sent 4)).success = false ∧
      0 ∈ (commPointSendUdpMsg 5 1 (UdpSendResult.sent 4)).logs ∧
      (commPointSendUdpMsgIf 5 1 (UdpSendResult.sent 4)).success = false ∧
      0 ∈ (commPointSendUdpMsgIf 5 1 (UdpSendResult.sent 4)).logs) ∧
    ((1 : Nat) < VERB_ALGO →
      commPointSendUdpMsg 5 1 (UdpSendResult.failed ENETUNREACH) =
        { success := false, attempted := 5, logs := [] }) ∧
    (VERB_OPS ≤ 1 →
      (commPointSendUdpMsgIf 5 1 (UdpSendResult.failed ENETUNREACH)).logs ≠ []) :=
  C9_udp_send_contract 5 1 4 (UdpSendResult.sent 5)
